import Mathlib

/-!
Shallow embedding of `src/download_s3_folders.py` (class `S3FolderDownloader`
and `main`).  The external world (S3 listings, per-object transfer outcomes)
is modelled as an oracle `Env`; `pathlib` paths are modelled by `PPath`;
the local filesystem's set of created directories is threaded explicitly so
that `mkdir(parents=True, exist_ok=True)` side effects are visible.
-/

namespace S3Dl

/-- Model of a `pathlib` POSIX path.  `pathlib` parses a path string into an
anchor plus a list of segments, dropping empty segments (from repeated `/`)
and `.` segments, while keeping `..` segments.  Two `pathlib` paths denote
the same destination iff their parsed forms coincide. -/
structure PPath where
  absolute : Bool
  segs : List String
deriving DecidableEq, Repr

/-- Python `s.endswith(t)`, on the character lists (structural, so the
kernel can evaluate it). -/
def strEndsWith (s t : String) : Bool := t.data.isSuffixOf s.data

/-- Python `s.startswith(t)`. -/
def strStartsWith (s t : String) : Bool := t.data.isPrefixOf s.data

/-- Python `s[n:]` (slicing counts characters, as `len` does). -/
def strDrop (s : String) (n : Nat) : String := ⟨s.data.drop n⟩

/-- Splitting a character list on `/`, exactly as Python
`s.split("/")` does: `"a//b" ↦ ["a", "", "b"]`, `"" ↦ [""]`. -/
def splitSlash : List Char → List (List Char)
  | [] => [[]]
  | c :: cs =>
    match splitSlash cs with
    | [] => [[c]]
    | seg :: rest => if c = '/' then [] :: seg :: rest else (c :: seg) :: rest

/-- The segment list `pathlib` extracts from a path string: split on `/`,
dropping empty and `.` components (`PurePosixPath("a//./b") == PurePosixPath("a/b")`). -/
def pathSegs (s : String) : List String :=
  ((splitSlash s.data).map (fun l => (⟨l⟩ : String))).filter
    (fun seg => seg != "" && seg != ".")

/-- Parse a path string (`Path(s)`). -/
def PPath.parse (s : String) : PPath :=
  ⟨strStartsWith s "/", pathSegs s⟩

/-- The `/` operator of `pathlib`: joining with an absolute string resets the
path, otherwise the new segments are appended. -/
def PPath.join (p : PPath) (s : String) : PPath :=
  if strStartsWith s "/" then PPath.parse s
  else ⟨p.absolute, p.segs ++ pathSegs s⟩

/-- `Path.parent`: drop the last segment. -/
def PPath.parent (p : PPath) : PPath :=
  ⟨p.absolute, p.segs.dropLast⟩

/-- All prefixes of a directory path: the directories that
`mkdir(parents=True)` guarantees to exist afterwards. -/
def PPath.ancestors (p : PPath) : List PPath :=
  (List.range (p.segs.length + 1)).map (fun n => ⟨p.absolute, p.segs.take n⟩)

/-- The model of the local filesystem: the set (as a list) of directories
that exist.  `mkdir(parents=True, exist_ok=True)` on `dir` adds every
missing ancestor of `dir` and `dir` itself. -/
def mkdirAll (fs : List PPath) (dir : PPath) : List PPath :=
  fs ++ dir.ancestors.filter (fun d => !fs.contains d)

/-- One entry of an S3 `list_objects_v2` page (`{"Key": ..., "Size": ...}`).
`Key` is always present; `Size` is modelled as optional because the per-file
loop reads `obj["Size"]` and a missing field raises `KeyError` there. -/
structure RemoteObject where
  key : String
  size : Option Nat
deriving DecidableEq, Repr

/-- Outcome of the (paginated, already concatenated) listing call for one
prefix: a successful page set, a `ClientError` (caught inside
`list_folder_objects`), or any other exception (propagates). -/
inductive Listing where
  | ok (objs : List RemoteObject)
  | clientError (msg : String)
  | raised (msg : String)
deriving DecidableEq, Repr

/-- Oracle for the external world: what the store returns when listing a
given prefix, and whether `s3_client.download_file` succeeds for a given
key (a `False` covers both `ClientError` and any other exception, since
`download_file` catches everything). -/
structure Env where
  listing : String → Listing
  fetchOk : String → Bool

/-- `S3FolderDownloader.list_folder_objects` (lines 74-92): accumulates all
pages; a `ClientError` is caught and yields `[]`; any other exception
escapes. -/
def list_folder_objects (l : Listing) : Except String (List RemoteObject) :=
  match l with
  | .ok objs => .ok objs
  | .clientError _ => .ok []
  | .raised msg => .error msg

/-- The local destination computed inside `download_folder` (lines 113-114,
146-147): `local_file_path = (local_path / folder_name) / s3_key[len(folder_name + "/"):]`. -/
def localDestPath (localPath : PPath) (folderName s3Key : String) : PPath :=
  let pfx := folderName ++ "/"
  (localPath.join folderName).join (strDrop s3Key pfx.length)

/-- `S3FolderDownloader.download_file` (lines 94-109): create the missing
parent directories of the destination, then attempt the fetch; every
exception is caught and converted to `False`.  Returns the outcome and the
updated filesystem. -/
def download_file (env : Env) (s3Key : String) (dest : PPath) (fs : List PPath) :
    Bool × List PPath :=
  let fs1 := mkdirAll fs dest.parent
  (env.fetchOk s3Key, fs1)

/-- The per-file loop of `download_folder` (lines 141-161).  State:
remaining objects, successful and failed tallies, filesystem, and a trace of
attempted downloads `(key, outcome)` in order.  Reading a missing `Size`
raises `KeyError`, which escapes the loop (there is no handler in
`download_folder`); side effects made so far persist. -/
def downloadLoop (env : Env) (localPath : PPath) (folderName : String) :
    List RemoteObject → Nat → Nat → List PPath → List (String × Bool) →
    Except String (Nat × Nat) × List PPath × List (String × Bool)
  | [], sc, fl, fs, tr => (.ok (sc, fl), fs, tr)
  | obj :: rest, sc, fl, fs, tr =>
    match obj.size with
    | none => (.error "KeyError: Size", fs, tr)
    | some _ =>
      let dest := localDestPath localPath folderName obj.key
      let r := download_file env obj.key dest fs
      if r.1 then
        downloadLoop env localPath folderName rest (sc + 1) fl r.2 (tr ++ [(obj.key, true)])
      else
        downloadLoop env localPath folderName rest sc (fl + 1) r.2 (tr ++ [(obj.key, false)])

/-- `S3FolderDownloader.download_folder` (lines 111-166): list the prefix,
return `(0, 0)` when the listing is empty (including the caught-`ClientError`
case), filter out folder markers (keys ending in `/`), return `(0, 0)` when
nothing remains, otherwise run the per-file loop.  The `Except` layer records
an exception escaping the method; the filesystem and trace are returned in
every case. -/
def download_folder (env : Env) (localPath : PPath) (folderName : String)
    (fs : List PPath) :
    Except String (Nat × Nat) × List PPath × List (String × Bool) :=
  let pfx := folderName ++ "/"
  match list_folder_objects (env.listing pfx) with
  | .error e => (.error e, fs, [])
  | .ok objects =>
    if objects.isEmpty then (.ok (0, 0), fs, [])
    else
      let files := objects.filter (fun o => !(strEndsWith o.key "/"))
      if files.isEmpty then (.ok (0, 0), fs, [])
      else downloadLoop env localPath folderName files 0 0 fs []

/-- One entry of `results["folder_results"]`: per-folder counts, plus the
`"error"` key that is present only on the exception path of
`download_folders`. -/
structure FolderResult where
  successful_files : Nat
  failed_files : Nat
  error : Option String
deriving DecidableEq, Repr

/-- The `results` dict built by `download_folders` (lines 170-179), minus
the wall-clock fields (`start_time`, `end_time`, `duration`), which are not
modelled. -/
structure BatchResult where
  total_folders : Nat
  successful_folders : Nat
  failed_folders : Nat
  total_files : Nat
  successful_files : Nat
  failed_files : Nat
  folder_results : List (String × FolderResult)
deriving DecidableEq, Repr

/-- Python dict assignment `d[k] = v`: overwrite in place when the key is
present (keeping its original position), otherwise append. -/
def dictInsert (m : List (String × FolderResult)) (k : String) (v : FolderResult) :
    List (String × FolderResult) :=
  if (m.map Prod.fst).contains k then
    m.map (fun p => if p.1 = k then (k, v) else p)
  else m ++ [(k, v)]

/-- One iteration of the folder loop in `download_folders` (lines 184-211):
on a normal return record the counts and classify the folder by
`failed_files == 0`; on an escaping exception record zero counts with the
message and count the folder as failed. -/
def processFolder (env : Env) (localPath : PPath)
    (acc : BatchResult × List PPath) (folderName : String) :
    BatchResult × List PPath :=
  match download_folder env localPath folderName acc.2 with
  | (.ok (sc, fl), fs', _) =>
    ({ acc.1 with
        folder_results := dictInsert acc.1.folder_results folderName ⟨sc, fl, none⟩,
        total_files := acc.1.total_files + (sc + fl),
        successful_files := acc.1.successful_files + sc,
        failed_files := acc.1.failed_files + fl,
        successful_folders :=
          if fl = 0 then acc.1.successful_folders + 1 else acc.1.successful_folders,
        failed_folders :=
          if fl = 0 then acc.1.failed_folders else acc.1.failed_folders + 1 }, fs')
  | (.error e, fs', _) =>
    ({ acc.1 with
        failed_folders := acc.1.failed_folders + 1,
        folder_results := dictInsert acc.1.folder_results folderName ⟨0, 0, some e⟩ }, fs')

/-- The initial `results` dict (lines 170-179). -/
def initBatch (n : Nat) : BatchResult :=
  { total_folders := n, successful_folders := 0, failed_folders := 0,
    total_files := 0, successful_files := 0, failed_files := 0,
    folder_results := [] }

/-- `S3FolderDownloader.download_folders` (lines 168-216). -/
def download_folders (env : Env) (localPath : PPath) (fs : List PPath)
    (folderNames : List String) : BatchResult × List PPath :=
  folderNames.foldl (processFolder env localPath) (initBatch folderNames.length, fs)

/-- The exit-status decision of `main` (lines 303-308): `sys.exit(0)` iff
`failed_folders == 0`, else `sys.exit(1)`. -/
def exitCode (r : BatchResult) : Nat :=
  if r.failed_folders = 0 then 0 else 1

/-- The itemized part of `print_summary` (lines 232-236): only when
`failed_folders > 0`, one line per folder-result entry with
`failed_files > 0`, showing the folder name and its failed-file count. -/
def failedFoldersListing (r : BatchResult) : List (String × Nat) :=
  if r.failed_folders > 0 then
    (r.folder_results.filter (fun p => p.2.failed_files > 0)).map
      (fun p => (p.1, p.2.failed_files))
  else []

/-- Sum of `successful_files` over folder-result entries. -/
def sumSucc (m : List (String × FolderResult)) : Nat :=
  (m.map (fun p => p.2.successful_files)).sum

/-- Sum of `failed_files` over folder-result entries. -/
def sumFail (m : List (String × FolderResult)) : Nat :=
  (m.map (fun p => p.2.failed_files)).sum

/-- Sum of `successful_files + failed_files` over folder-result entries. -/
def sumTotal (m : List (String × FolderResult)) : Nat :=
  (m.map (fun p => p.2.successful_files + p.2.failed_files)).sum

/-- Decidable equality for `Except`, so that concrete runs of
`download_folder` can be checked by `decide`. -/
instance {α β : Type} [DecidableEq α] [DecidableEq β] : DecidableEq (Except α β) :=
  fun a b =>
    match a, b with
    | .ok x, .ok y => decidable_of_iff (x = y) (by simp)
    | .error x, .error y => decidable_of_iff (x = y) (by simp)
    | .ok _, .error _ => isFalse (fun hc => by cases hc)
    | .error _, .ok _ => isFalse (fun hc => by cases hc)

/-- Environment for the C1 counterexample: folder `A` holds the single
object `A/x`, every fetch succeeds. -/
def envC1 : Env :=
  { listing := fun p => if p = "A/" then .ok [⟨"A/x", some 1⟩] else .ok [],
    fetchOk := fun _ => true }

/-- Environment for the C1 witness: distinct folders `A` (two objects, one
failing fetch) and `B` (one object). -/
def envC1w : Env :=
  { listing := fun p =>
      if p = "A/" then .ok [⟨"A/x", some 1⟩, ⟨"A/y", some 2⟩]
      else if p = "B/" then .ok [⟨"B/z", some 3⟩]
      else .ok [],
    fetchOk := fun k => k != "A/y" }

/-- Environment for the C2 witness: every listing raises a `ClientError`. -/
def envC2a : Env := { listing := fun _ => .clientError "err", fetchOk := fun _ => true }

/-- Environment for the C2 witness: every listing is genuinely empty. -/
def envC2b : Env := { listing := fun _ => .ok [], fetchOk := fun _ => true }

/-- Environment for the C3 witness: the §8 scenario, folder `1000` with a
good file, a failing file and a marker object. -/
def envC3 : Env :=
  { listing := fun p =>
      if p = "1000/" then
        .ok [⟨"1000/a.csv", some 1⟩, ⟨"1000/b.csv", some 1⟩, ⟨"1000/", some 0⟩]
      else .ok [],
    fetchOk := fun k => k = "1000/a.csv" }

/-- Environment for the C4 witness: folder `F`'s second listing entry lacks
its `Size` field, so the per-file loop raises `KeyError`; folder `G` is
fine. -/
def envC4 : Env :=
  { listing := fun p =>
      if p = "F/" then .ok [⟨"F/a", some 1⟩, ⟨"F/b", none⟩] else .ok [],
    fetchOk := fun _ => true }

/-- Environment for the C7 witness: folder `M` lists a marker object and a
failing real object. -/
def envC7 : Env :=
  { listing := fun p =>
      if p = "M/" then .ok [⟨"M/", some 0⟩, ⟨"M/x", some 1⟩] else .ok [],
    fetchOk := fun _ => false }

/-- A concrete `results` value for the C8 witness: folder `A` failed with a
failed file, folder `B` failed through an attached error only. -/
def rC8 : BatchResult :=
  { total_folders := 2, successful_folders := 0, failed_folders := 2,
    total_files := 3, successful_files := 2, failed_files := 1,
    folder_results := [("A", ⟨2, 1, none⟩), ("B", ⟨0, 0, some "boom"⟩)] }

/-- Environment for the C9 witness: `F/a.txt` downloads fine, then
`F/b.txt` lacks its `Size` field and the loop raises. -/
def envC9 : Env :=
  { listing := fun p =>
      if p = "F/" then .ok [⟨"F/a.txt", some 1⟩, ⟨"F/b.txt", none⟩] else .ok [],
    fetchOk := fun _ => true }

/-- Environment for the C10 witness: every fetch fails. -/
def envC10 : Env := { listing := fun _ => .ok [], fetchOk := fun _ => false }

end S3Dl

namespace S3Dl

/-! ### Helper lemmas -/

/-- The per-file loop, when every listed object carries a `Size`, finishes
normally: the attempted-download trace extends by exactly one entry per
object in listing order, and the tallies advance by the number of objects
processed. -/
theorem downloadLoop_total (env : Env) (lp : PPath) (F : String) :
    ∀ (files : List RemoteObject) (sc fl : Nat) (fs : List PPath)
      (tr : List (String × Bool)),
    (∀ o ∈ files, o.size.isSome) →
    ∃ s f fs',
      downloadLoop env lp F files sc fl fs tr =
        (.ok (s, f), fs', tr ++ files.map (fun o => (o.key, env.fetchOk o.key))) ∧
      s + f = sc + fl + files.length := by
  intro files
  induction files with
  | nil =>
    intro sc fl fs tr _
    exact ⟨sc, fl, fs, by simp [downloadLoop], by simp⟩
  | cons obj rest ih =>
    intro sc fl fs tr h
    obtain ⟨n, hn⟩ := Option.isSome_iff_exists.mp (h obj (by simp))
    cases hfo : env.fetchOk obj.key with
    | true =>
      obtain ⟨s, f, fs', heq, hcnt⟩ :=
        ih (sc + 1) fl (mkdirAll fs (localDestPath lp F obj.key).parent)
          (tr ++ [(obj.key, true)]) (fun o ho => h o (by simp [ho]))
      refine ⟨s, f, fs', ?_, by simp; omega⟩
      simp only [downloadLoop, hn, download_file, hfo, if_pos]
      rw [heq]
      simp [hfo]
    | false =>
      obtain ⟨s, f, fs', heq, hcnt⟩ :=
        ih sc (fl + 1) (mkdirAll fs (localDestPath lp F obj.key).parent)
          (tr ++ [(obj.key, false)]) (fun o ho => h o (by simp [ho]))
      refine ⟨s, f, fs', ?_, by simp; omega⟩
      simp only [downloadLoop, hn, download_file, hfo]
      rw [if_neg (by simp)]
      rw [heq]
      simp [hfo]

/-- Every key appearing in the per-file loop's trace extension is the key of
one of the processed objects. -/
theorem downloadLoop_trace_keys (env : Env) (lp : PPath) (F : String) :
    ∀ (files : List RemoteObject) (sc fl : Nat) (fs : List PPath)
      (tr : List (String × Bool)) (p : String × Bool),
    p ∈ (downloadLoop env lp F files sc fl fs tr).2.2 →
    p ∈ tr ∨ p.1 ∈ files.map (fun o => o.key) := by
  intro files
  induction files with
  | nil =>
    intro sc fl fs tr p hp
    simp [downloadLoop] at hp
    exact Or.inl hp
  | cons obj rest ih =>
    intro sc fl fs tr p hp
    cases hn : obj.size with
    | none =>
      simp [downloadLoop, hn] at hp
      exact Or.inl hp
    | some n =>
      simp only [downloadLoop, hn, download_file] at hp
      cases hfo : env.fetchOk obj.key with
      | true =>
        rw [if_pos (by simp [hfo])] at hp
        rcases ih _ _ _ _ _ hp with h | h
        · rcases List.mem_append.mp h with h | h
          · exact Or.inl h
          · simp at h; subst h; simp
        · simp at h ⊢; tauto
      | false =>
        rw [if_neg (by simp [hfo])] at hp
        rcases ih _ _ _ _ _ hp with h | h
        · rcases List.mem_append.mp h with h | h
          · exact Or.inl h
          · simp at h; subst h; simp
        · simp at h ⊢; tauto

end S3Dl

namespace S3Dl

/-- Inserting a fresh key into the results dict appends an entry. -/
theorem dictInsert_of_not_mem (m : List (String × FolderResult)) (k : String)
    (v : FolderResult) (h : k ∉ m.map Prod.fst) :
    dictInsert m k v = m ++ [(k, v)] := by
  unfold dictInsert
  rw [if_neg]
  simpa using h

/-- `dictInsert` keeps the key set, except for adding `k` when absent. -/
theorem keys_dictInsert (m : List (String × FolderResult)) (k : String)
    (v : FolderResult) :
    (dictInsert m k v).map Prod.fst =
      if k ∈ m.map Prod.fst then m.map Prod.fst else m.map Prod.fst ++ [k] := by
  unfold dictInsert
  by_cases h : k ∈ m.map Prod.fst
  · rw [if_pos (by simpa using h), if_pos h, List.map_map]
    apply List.map_congr_left
    intro p _
    by_cases hp : p.1 = k <;> simp [hp]
  · rw [if_neg (by simpa using h), if_neg h]
    simp

theorem sumTotal_append (m : List (String × FolderResult)) (k : String)
    (v : FolderResult) :
    sumTotal (m ++ [(k, v)]) = sumTotal m + (v.successful_files + v.failed_files) := by
  simp [sumTotal]

theorem sumSucc_append (m : List (String × FolderResult)) (k : String)
    (v : FolderResult) :
    sumSucc (m ++ [(k, v)]) = sumSucc m + v.successful_files := by
  simp [sumSucc]

theorem sumFail_append (m : List (String × FolderResult)) (k : String)
    (v : FolderResult) :
    sumFail (m ++ [(k, v)]) = sumFail m + v.failed_files := by
  simp [sumFail]

/-- Unfolding one orchestrator iteration when `download_folder` returns
normally. -/
theorem processFolder_ok (env : Env) (lp : PPath) (r : BatchResult)
    (fs : List PPath) (F : String) (sc fl : Nat) (fs' : List PPath)
    (tr : List (String × Bool))
    (h : download_folder env lp F fs = (.ok (sc, fl), fs', tr)) :
    processFolder env lp (r, fs) F =
      ({ r with
          folder_results := dictInsert r.folder_results F ⟨sc, fl, none⟩,
          total_files := r.total_files + (sc + fl),
          successful_files := r.successful_files + sc,
          failed_files := r.failed_files + fl,
          successful_folders :=
            if fl = 0 then r.successful_folders + 1 else r.successful_folders,
          failed_folders :=
            if fl = 0 then r.failed_folders else r.failed_folders + 1 }, fs') := by
  simp only [processFolder, h]

/-- Unfolding one orchestrator iteration when `download_folder` raises. -/
theorem processFolder_error (env : Env) (lp : PPath) (r : BatchResult)
    (fs : List PPath) (F : String) (e : String) (fs' : List PPath)
    (tr : List (String × Bool))
    (h : download_folder env lp F fs = (.error e, fs', tr)) :
    processFolder env lp (r, fs) F =
      ({ r with
          failed_folders := r.failed_folders + 1,
          folder_results := dictInsert r.folder_results F ⟨0, 0, some e⟩ }, fs') := by
  simp only [processFolder, h]

/-- One orchestrator iteration: `total_folders` untouched, the balance
`total_files = successful_files + failed_files` preserved, and the folder
is classified exactly once. -/
theorem processFolder_step (env : Env) (lp : PPath) (r : BatchResult)
    (fs : List PPath) (F : String) :
    (processFolder env lp (r, fs) F).1.total_folders = r.total_folders ∧
    (processFolder env lp (r, fs) F).1.successful_folders +
        (processFolder env lp (r, fs) F).1.failed_folders =
      r.successful_folders + r.failed_folders + 1 ∧
    (r.total_files = r.successful_files + r.failed_files →
      (processFolder env lp (r, fs) F).1.total_files =
        (processFolder env lp (r, fs) F).1.successful_files +
          (processFolder env lp (r, fs) F).1.failed_files) := by
  rcases hdf : download_folder env lp F fs with ⟨e, fs', tr⟩
  cases e with
  | ok p =>
    obtain ⟨sc, fl⟩ := p
    rw [processFolder_ok env lp r fs F sc fl fs' tr hdf]
    refine ⟨rfl, ?_, ?_⟩
    · by_cases hfl : fl = 0 <;> simp [hfl] <;> omega
    · intro h; simp; omega
  | error msg =>
    rw [processFolder_error env lp r fs F msg fs' tr hdf]
    exact ⟨rfl, rfl, fun h => h⟩

/-- One orchestrator iteration on a folder name not yet present in the
results dict: the key is appended and the entry-sum invariants are carried
along. -/
theorem processFolder_sums_step (env : Env) (lp : PPath) (r : BatchResult)
    (fs : List PPath) (F : String)
    (hFr : F ∉ r.folder_results.map Prod.fst) :
    (processFolder env lp (r, fs) F).1.folder_results.map Prod.fst =
      r.folder_results.map Prod.fst ++ [F] ∧
    (r.total_files = sumTotal r.folder_results →
      (processFolder env lp (r, fs) F).1.total_files =
        sumTotal (processFolder env lp (r, fs) F).1.folder_results) ∧
    (r.successful_files = sumSucc r.folder_results →
      (processFolder env lp (r, fs) F).1.successful_files =
        sumSucc (processFolder env lp (r, fs) F).1.folder_results) ∧
    (r.failed_files = sumFail r.folder_results →
      (processFolder env lp (r, fs) F).1.failed_files =
        sumFail (processFolder env lp (r, fs) F).1.folder_results) := by
  rcases hdf : download_folder env lp F fs with ⟨e, fs', tr⟩
  cases e with
  | ok p =>
    obtain ⟨sc, fl⟩ := p
    rw [processFolder_ok env lp r fs F sc fl fs' tr hdf]
    dsimp only
    rw [dictInsert_of_not_mem _ _ _ hFr]
    refine ⟨by simp, ?_, ?_, ?_⟩
    · intro h; rw [sumTotal_append]; simp [h]
    · intro h; rw [sumSucc_append]; simp [h]
    · intro h; rw [sumFail_append]; simp [h]
  | error msg =>
    rw [processFolder_error env lp r fs F msg fs' tr hdf]
    dsimp only
    rw [dictInsert_of_not_mem _ _ _ hFr]
    refine ⟨by simp, ?_, ?_, ?_⟩
    · intro h; rw [sumTotal_append]; simp [h]
    · intro h; rw [sumSucc_append]; simp [h]
    · intro h; rw [sumFail_append]; simp [h]

end S3Dl

namespace S3Dl

/-- Facts holding across the whole folder loop with no assumption on the
input list. -/
theorem foldl_processFolder_basic (env : Env) (lp : PPath) :
    ∀ (names : List String) (r : BatchResult) (fs : List PPath),
    r.total_files = r.successful_files + r.failed_files →
    (names.foldl (processFolder env lp) (r, fs)).1.total_folders = r.total_folders ∧
    (names.foldl (processFolder env lp) (r, fs)).1.total_files =
      (names.foldl (processFolder env lp) (r, fs)).1.successful_files +
        (names.foldl (processFolder env lp) (r, fs)).1.failed_files ∧
    (names.foldl (processFolder env lp) (r, fs)).1.successful_folders +
        (names.foldl (processFolder env lp) (r, fs)).1.failed_folders =
      r.successful_folders + r.failed_folders + names.length := by
  intro names
  induction names with
  | nil => intro r fs h; exact ⟨rfl, h, rfl⟩
  | cons F rest ih =>
    intro r fs h
    obtain ⟨s1, s2, s3⟩ := processFolder_step env lp r fs F
    rcases hstep : processFolder env lp (r, fs) F with ⟨r', fs2⟩
    rw [hstep] at s1 s2 s3
    obtain ⟨h1, h2, h3⟩ := ih r' fs2 (s3 h)
    rw [List.foldl_cons, hstep]
    refine ⟨by rw [h1, s1], h2, ?_⟩
    rw [h3, s2]
    simp [Nat.add_assoc, Nat.add_comm 1 rest.length]

/-- The entry-sum invariants hold across the folder loop when the remaining
names are distinct and fresh for the accumulated dict. -/
theorem foldl_processFolder_sums (env : Env) (lp : PPath) :
    ∀ (names : List String) (r : BatchResult) (fs : List PPath),
    names.Nodup →
    (∀ n ∈ names, n ∉ r.folder_results.map Prod.fst) →
    r.total_files = sumTotal r.folder_results →
    r.successful_files = sumSucc r.folder_results →
    r.failed_files = sumFail r.folder_results →
    (names.foldl (processFolder env lp) (r, fs)).1.total_files =
        sumTotal (names.foldl (processFolder env lp) (r, fs)).1.folder_results ∧
    (names.foldl (processFolder env lp) (r, fs)).1.successful_files =
        sumSucc (names.foldl (processFolder env lp) (r, fs)).1.folder_results ∧
    (names.foldl (processFolder env lp) (r, fs)).1.failed_files =
        sumFail (names.foldl (processFolder env lp) (r, fs)).1.folder_results := by
  intro names
  induction names with
  | nil => intro r fs _ _ h1 h2 h3; exact ⟨h1, h2, h3⟩
  | cons F rest ih =>
    intro r fs hnd hfresh h1 h2 h3
    have hFr : F ∉ r.folder_results.map Prod.fst := hfresh F (by simp)
    obtain ⟨k1, k2, k3, k4⟩ := processFolder_sums_step env lp r fs F hFr
    rcases hstep : processFolder env lp (r, fs) F with ⟨r', fs2⟩
    rw [hstep] at k1 k2 k3 k4
    rw [List.foldl_cons, hstep]
    refine ih r' fs2 hnd.of_cons ?_ (k2 h1) (k3 h2) (k4 h3)
    intro n hn
    rw [k1]
    simp only [List.mem_append, List.mem_singleton]
    push_neg
    exact ⟨hfresh n (by simp [hn]),
      fun hc => (List.nodup_cons.mp hnd).1 (hc ▸ hn)⟩

/-- A key is in the dict after an assignment iff it was there before or is
the assigned key. -/
theorem mem_keys_dictInsert (m : List (String × FolderResult)) (k : String)
    (v : FolderResult) (q : String) :
    q ∈ (dictInsert m k v).map Prod.fst ↔ q ∈ m.map Prod.fst ∨ q = k := by
  rw [keys_dictInsert]
  by_cases h : k ∈ m.map Prod.fst
  · rw [if_pos h]
    constructor
    · exact Or.inl
    · rintro (hq | rfl)
      · exact hq
      · exact h
  · rw [if_neg h]
    simp

/-- Every orchestrator iteration writes some entry for its folder name. -/
theorem folderResults_processFolder (env : Env) (lp : PPath) (r : BatchResult)
    (fs : List PPath) (F : String) :
    ∃ v, (processFolder env lp (r, fs) F).1.folder_results =
      dictInsert r.folder_results F v := by
  rcases hdf : download_folder env lp F fs with ⟨e, fs', tr⟩
  cases e with
  | ok p =>
    obtain ⟨sc, fl⟩ := p
    exact ⟨⟨sc, fl, none⟩, by rw [processFolder_ok env lp r fs F sc fl fs' tr hdf]⟩
  | error msg =>
    exact ⟨⟨0, 0, some msg⟩, by rw [processFolder_error env lp r fs F msg fs' tr hdf]⟩

/-- Every folder name of the input list (and every already-recorded key)
has an entry in the final results dict: no folder is skipped. -/
theorem foldl_processFolder_keys (env : Env) (lp : PPath) :
    ∀ (names : List String) (r : BatchResult) (fs : List PPath) (q : String),
    q ∈ names ∨ q ∈ r.folder_results.map Prod.fst →
    q ∈ (names.foldl (processFolder env lp) (r, fs)).1.folder_results.map Prod.fst := by
  intro names
  induction names with
  | nil =>
    intro r fs q h
    simpa using h.resolve_left (by simp)
  | cons F rest ih =>
    intro r fs q h
    obtain ⟨v, hv⟩ := folderResults_processFolder env lp r fs F
    rcases hstep : processFolder env lp (r, fs) F with ⟨r', fs2⟩
    rw [hstep] at hv
    rw [List.foldl_cons, hstep]
    apply ih
    rcases h with h | h
    · rcases List.mem_cons.mp h with rfl | h
      · right
        rw [hv, mem_keys_dictInsert]
        exact Or.inr rfl
      · left; exact h
    · right
      rw [hv, mem_keys_dictInsert]
      exact Or.inl h

end S3Dl

namespace S3Dl

/-- C1 fails as stated: on the input list `["A", "A"]` (a list of folder
names, as the claim quantifies) the second iteration overwrites the dict
entry of the first, so `successful_files = 2` while the entry sum is `1`. -/
theorem C1_counterexample :
    (download_folders envC1 (PPath.parse "local") [] ["A", "A"]).1.successful_files = 2 ∧
    sumSucc (download_folders envC1 (PPath.parse "local") [] ["A", "A"]).1.folder_results = 1 ∧
    ¬ ((download_folders envC1 (PPath.parse "local") [] ["A", "A"]).1.successful_files =
        sumSucc (download_folders envC1 (PPath.parse "local") [] ["A", "A"]).1.folder_results) := by
  refine ⟨by decide, by decide, by decide⟩

/-- C1 (amended): for every run of `download_folders`,
`total_files = successful_files + failed_files` and
`successful_folders + failed_folders = total_folders`; and provided the
input folder names are pairwise distinct, the three file aggregates equal
the corresponding sums over the `folder_results` entries.  (With duplicate
names the dict entry is overwritten and the entry sums fall short.) -/
theorem C1_aggregate_invariants (env : Env) (lp : PPath) (fs : List PPath)
    (names : List String) :
    ((download_folders env lp fs names).1.total_files =
        (download_folders env lp fs names).1.successful_files +
          (download_folders env lp fs names).1.failed_files ∧
      (download_folders env lp fs names).1.successful_folders +
          (download_folders env lp fs names).1.failed_folders =
        (download_folders env lp fs names).1.total_folders) ∧
    (names.Nodup →
      (download_folders env lp fs names).1.total_files =
          sumTotal (download_folders env lp fs names).1.folder_results ∧
      (download_folders env lp fs names).1.successful_files =
          sumSucc (download_folders env lp fs names).1.folder_results ∧
      (download_folders env lp fs names).1.failed_files =
          sumFail (download_folders env lp fs names).1.folder_results) := by
  unfold download_folders
  obtain ⟨b1, b2, b3⟩ :=
    foldl_processFolder_basic env lp names (initBatch names.length) fs (by simp [initBatch])
  refine ⟨⟨b2, ?_⟩, ?_⟩
  · rw [b3, b1]
    simp [initBatch]
  · intro hnd
    exact foldl_processFolder_sums env lp names (initBatch names.length) fs hnd
      (by simp [initBatch]) (by simp [initBatch, sumTotal])
      (by simp [initBatch, sumSucc]) (by simp [initBatch, sumFail])

/-- C1 witness: the amended claim instantiated on the distinct list
`["A", "B"]`. -/
theorem C1_witness :
    (["A", "B"] : List String).Nodup ∧
    ((download_folders envC1w (PPath.parse "local") [] ["A", "B"]).1.total_files =
        sumTotal (download_folders envC1w (PPath.parse "local") [] ["A", "B"]).1.folder_results ∧
      (download_folders envC1w (PPath.parse "local") [] ["A", "B"]).1.successful_files =
        sumSucc (download_folders envC1w (PPath.parse "local") [] ["A", "B"]).1.folder_results ∧
      (download_folders envC1w (PPath.parse "local") [] ["A", "B"]).1.failed_files =
        sumFail (download_folders envC1w (PPath.parse "local") [] ["A", "B"]).1.folder_results) :=
  ⟨by decide,
    (C1_aggregate_invariants envC1w (PPath.parse "local") [] ["A", "B"]).2 (by decide)⟩

/-- C2: a folder whose listing fails with a `ClientError` yields `(0, 0)`
from `download_folder`, produces the very same value as a genuinely empty
listing, and the orchestrator classifies it successful, recording the entry
`⟨0, 0, none⟩` (no error note) and leaving `failed_folders` and every file
aggregate untouched. -/
theorem C2_listing_failure_lenient (env env2 : Env) (lp : PPath)
    (fs : List PPath) (F msg : String) (r : BatchResult)
    (h : env.listing (F ++ "/") = .clientError msg)
    (h2 : env2.listing (F ++ "/") = .ok []) :
    download_folder env lp F fs = (.ok (0, 0), fs, []) ∧
    download_folder env lp F fs = download_folder env2 lp F fs ∧
    processFolder env lp (r, fs) F =
      ({ r with
          folder_results := dictInsert r.folder_results F ⟨0, 0, none⟩,
          successful_folders := r.successful_folders + 1 }, fs) := by
  have hd : download_folder env lp F fs = (.ok (0, 0), fs, []) := by
    simp [download_folder, list_folder_objects, h]
  have hd2 : download_folder env2 lp F fs = (.ok (0, 0), fs, []) := by
    simp [download_folder, list_folder_objects, h2]
  refine ⟨hd, by rw [hd, hd2], ?_⟩
  rw [processFolder_ok env lp r fs F 0 0 fs [] hd]
  simp

/-- C2 witness: the lenient-listing behavior at folder `B`. -/
theorem C2_witness :
    envC2a.listing ("B" ++ "/") = .clientError "err" ∧
    envC2b.listing ("B" ++ "/") = .ok [] ∧
    (download_folder envC2a (PPath.parse "local") "B" [] = (.ok (0, 0), [], []) ∧
      download_folder envC2a (PPath.parse "local") "B" [] =
        download_folder envC2b (PPath.parse "local") "B" [] ∧
      processFolder envC2a (PPath.parse "local") (initBatch 1, []) "B" =
        ({ initBatch 1 with
            folder_results := dictInsert (initBatch 1).folder_results "B" ⟨0, 0, none⟩,
            successful_folders := (initBatch 1).successful_folders + 1 }, [])) :=
  ⟨rfl, rfl,
    C2_listing_failure_lenient envC2a envC2b (PPath.parse "local") [] "B" "err"
      (initBatch 1) rfl rfl⟩

/-- C3: when the listing of folder `F` succeeds and every listed object
carries its `Size` field, `download_folder` returns normally; the trace of
attempted downloads is exactly one attempt per non-marker object, in
listing order, whatever the pattern of per-file failures
(`env.fetchOk` is arbitrary), and the returned counts satisfy
`successful + failed = number of non-marker objects`. -/
theorem C3_partial_failure_isolation (env : Env) (lp : PPath) (fs : List PPath)
    (F : String) (objs : List RemoteObject)
    (hl : env.listing (F ++ "/") = .ok objs)
    (hs : ∀ o ∈ objs, o.size.isSome) :
    ∃ s f fs',
      download_folder env lp F fs =
        (.ok (s, f), fs',
          (objs.filter (fun o => !(strEndsWith o.key "/"))).map
            (fun o => (o.key, env.fetchOk o.key))) ∧
      s + f = (objs.filter (fun o => !(strEndsWith o.key "/"))).length := by
  rcases objs with _ | ⟨o, os⟩
  · refine ⟨0, 0, fs, ?_, by simp⟩
    simp [download_folder, list_folder_objects, hl]
  · rcases hfil : (o :: os).filter (fun x => !(strEndsWith x.key "/")) with _ | ⟨p, ps⟩
    · refine ⟨0, 0, fs, ?_, by rw [hfil]; rfl⟩
      simp only [download_folder]
      rw [hl]
      simp only [list_folder_objects]
      rw [hfil]
      simp
    · obtain ⟨s, f, fs', heq, hcnt⟩ :=
        downloadLoop_total env lp F (p :: ps) 0 0 fs []
          (fun x hx => hs x (List.mem_of_mem_filter (by rw [hfil]; exact hx)))
      refine ⟨s, f, fs', ?_, by rw [hfil]; omega⟩
      simp only [download_folder]
      rw [hl]
      simp only [list_folder_objects]
      rw [hfil, heq]
      simp

/-- C3 witness: folder `1000` is processed file by file past the failure of
`1000/b.csv`. -/
theorem C3_witness :
    envC3.listing ("1000" ++ "/") =
      .ok [⟨"1000/a.csv", some 1⟩, ⟨"1000/b.csv", some 1⟩, ⟨"1000/", some 0⟩] ∧
    (∀ o ∈ [(⟨"1000/a.csv", some 1⟩ : RemoteObject), ⟨"1000/b.csv", some 1⟩, ⟨"1000/", some 0⟩],
      o.size.isSome) ∧
    (∃ s f fs',
      download_folder envC3 (PPath.parse "local") "1000" [] =
        (.ok (s, f), fs',
          (([⟨"1000/a.csv", some 1⟩, ⟨"1000/b.csv", some 1⟩, ⟨"1000/", some 0⟩] :
              List RemoteObject).filter (fun o => !(strEndsWith o.key "/"))).map
            (fun o => (o.key, envC3.fetchOk o.key))) ∧
      s + f = (([⟨"1000/a.csv", some 1⟩, ⟨"1000/b.csv", some 1⟩, ⟨"1000/", some 0⟩] :
          List RemoteObject).filter (fun o => !(strEndsWith o.key "/"))).length) :=
  ⟨rfl, by decide,
    C3_partial_failure_isolation envC3 (PPath.parse "local") [] "1000"
      [⟨"1000/a.csv", some 1⟩, ⟨"1000/b.csv", some 1⟩, ⟨"1000/", some 0⟩] rfl (by decide)⟩

/-- C4: when `download_folder` raises, the orchestrator iteration records
`⟨0, 0, some e⟩` for that folder, counts it failed, leaves every file
aggregate untouched — and the loop never skips a folder: every input name
ends up as a key of `folder_results`. -/
theorem C4_folder_failure_isolation (env : Env) (lp : PPath) (fs : List PPath)
    (F e : String) (fs' : List PPath) (tr : List (String × Bool)) (r : BatchResult)
    (h : download_folder env lp F fs = (.error e, fs', tr)) :
    processFolder env lp (r, fs) F =
      ({ r with
          failed_folders := r.failed_folders + 1,
          folder_results := dictInsert r.folder_results F ⟨0, 0, some e⟩ }, fs') ∧
    (∀ (names : List String) (fs0 : List PPath) (q : String), q ∈ names →
      q ∈ (download_folders env lp fs0 names).1.folder_results.map Prod.fst) := by
  refine ⟨processFolder_error env lp r fs F e fs' tr h, ?_⟩
  intro names fs0 q hq
  exact foldl_processFolder_keys env lp names (initBatch names.length) fs0 q (Or.inl hq)

/-- C4 witness: the exception from folder `F` is recorded and `G` is still
processed. -/
theorem C4_witness :
    download_folder envC4 (PPath.parse "local") "F" [] =
      (.error "KeyError: Size",
        [⟨false, []⟩, ⟨false, ["local"]⟩, ⟨false, ["local", "F"]⟩],
        [("F/a", true)]) ∧
    (processFolder envC4 (PPath.parse "local") (initBatch 2, []) "F" =
        ({ initBatch 2 with
            failed_folders := (initBatch 2).failed_folders + 1,
            folder_results :=
              dictInsert (initBatch 2).folder_results "F" ⟨0, 0, some "KeyError: Size"⟩ },
          [⟨false, []⟩, ⟨false, ["local"]⟩, ⟨false, ["local", "F"]⟩]) ∧
      (∀ (names : List String) (fs0 : List PPath) (q : String), q ∈ names →
        q ∈ (download_folders envC4 (PPath.parse "local") fs0 names).1.folder_results.map
          Prod.fst)) :=
  ⟨by decide,
    C4_folder_failure_isolation envC4 (PPath.parse "local") [] "F" "KeyError: Size"
      [⟨false, []⟩, ⟨false, ["local"]⟩, ⟨false, ["local", "F"]⟩] [("F/a", true)]
      (initBatch 2) (by decide)⟩

end S3Dl

namespace S3Dl

/-- If the per-file loop returns normally it has processed every remaining
object: the tallies advance by exactly the number of objects. -/
theorem downloadLoop_ok_counts (env : Env) (lp : PPath) (F : String) :
    ∀ (files : List RemoteObject) (sc fl : Nat) (fs : List PPath)
      (tr : List (String × Bool)) (s f : Nat) (fs' : List PPath)
      (tr' : List (String × Bool)),
    downloadLoop env lp F files sc fl fs tr = (.ok (s, f), fs', tr') →
    s + f = sc + fl + files.length := by
  intro files
  induction files with
  | nil =>
    intro sc fl fs tr s f fs' tr' h
    simp [downloadLoop] at h
    simp only [List.length_nil]
    omega
  | cons obj rest ih =>
    intro sc fl fs tr s f fs' tr' h
    cases hn : obj.size with
    | none =>
      rw [downloadLoop, hn] at h
      simp at h
    | some n =>
      simp only [downloadLoop, hn, download_file] at h
      cases hfo : env.fetchOk obj.key with
      | true =>
        rw [if_pos (by simp [hfo])] at h
        have := ih _ _ _ _ _ _ _ _ h
        simp at this ⊢
        omega
      | false =>
        rw [if_neg (by simp [hfo])] at h
        have := ih _ _ _ _ _ _ _ _ h
        simp at this ⊢
        omega

/-- A path is among its own `mkdir(parents=True)` prefixes. -/
theorem mem_ancestors_self (p : PPath) : p ∈ p.ancestors := by
  unfold PPath.ancestors
  refine List.mem_map.mpr ⟨p.segs.length, by simp, ?_⟩
  cases p
  simp

/-- After `mkdirAll fs dir`, every prefix of `dir` exists. -/
theorem mem_mkdirAll_of_ancestor (fs : List PPath) (dir d : PPath)
    (hd : d ∈ dir.ancestors) : d ∈ mkdirAll fs dir := by
  unfold mkdirAll
  by_cases h : d ∈ fs
  · exact List.mem_append.mpr (Or.inl h)
  · refine List.mem_append.mpr (Or.inr (List.mem_filter.mpr ⟨hd, ?_⟩))
    simp only [Bool.not_eq_true']
    rw [← Bool.not_eq_true]
    intro hc
    exact h (by simpa [List.contains, List.elem_iff] using hc)

/-- `mkdirAll` never removes a directory. -/
theorem mem_mkdirAll_of_mem (fs : List PPath) (dir d : PPath)
    (hd : d ∈ fs) : d ∈ mkdirAll fs dir :=
  List.mem_append.mpr (Or.inl hd)

/-- Python slicing `(a + b)[len(a):] = b`, on the model primitives. -/
theorem strDrop_append (a b : String) : strDrop (a ++ b) a.length = b := by
  show (⟨((a ++ b).data).drop a.length⟩ : String) = b
  rw [show (a ++ b).data = a.data ++ b.data from rfl,
    show a.length = a.data.length from rfl, List.drop_left]

/-- The destination computed by `download_folder` for a key `(F ++ "/") ++ R`
is `(local_path / F) / R`. -/
theorem localDestPath_eq (lp : PPath) (F K R : String)
    (hK : K = (F ++ "/") ++ R) :
    localDestPath lp F K = (lp.join F).join R := by
  simp only [localDestPath]
  rw [hK, strDrop_append]

end S3Dl

namespace S3Dl

/-- C5: for a key of the form `(F ++ "/") ++ R` (i.e. starting with the
prefix `F + "/"`), the computed destination is exactly
`local_root / F / R`, and no traversal or absolute-path segment of the
stripped remainder is normalized away: every `pathlib` segment of `R`
(including `..`) survives into the destination path. -/
theorem C5_path_mapping (lp : PPath) (F K R : String)
    (hK : K = (F ++ "/") ++ R) :
    localDestPath lp F K = (lp.join F).join R ∧
    ∀ seg ∈ pathSegs R, seg ∈ (localDestPath lp F K).segs := by
  have hmap := localDestPath_eq lp F K R hK
  refine ⟨hmap, ?_⟩
  intro seg hseg
  rw [hmap]
  unfold PPath.join
  by_cases habs : strStartsWith R "/"
  · rw [if_pos habs]
    exact hseg
  · rw [if_neg habs]
    exact List.mem_append.mpr (Or.inr hseg)

/-- C5 witness: the key `F/../x` maps to `local/F/../x`, keeping the `..`
segment. -/
theorem C5_witness :
    ("F/../x" : String) = ("F" ++ "/") ++ "../x" ∧
    (localDestPath (PPath.parse "local") "F" "F/../x" =
        ((PPath.parse "local").join "F").join "../x" ∧
      ∀ seg ∈ pathSegs "../x",
        seg ∈ (localDestPath (PPath.parse "local") "F" "F/../x").segs) ∧
    ".." ∈ (localDestPath (PPath.parse "local") "F" "F/../x").segs :=
  ⟨by decide, C5_path_mapping (PPath.parse "local") "F" "F/../x" "../x" (by decide),
    by decide⟩

/-- C6 fails as stated: the distinct keys `F/a//b` and `F/a/b` both start
with the prefix `F/`, yet `pathlib` drops the empty segment coming from
`//` and both map to the same destination `local/F/a/b`. -/
theorem C6_counterexample :
    ("F/a//b" : String) ≠ "F/a/b" ∧
    strStartsWith "F/a//b" ("F" ++ "/") = true ∧
    strStartsWith "F/a/b" ("F" ++ "/") = true ∧
    localDestPath (PPath.parse "local") "F" "F/a//b" =
      localDestPath (PPath.parse "local") "F" "F/a/b" := by
  refine ⟨by decide, by decide, by decide, by decide⟩

/-- C6 (amended): within one folder the mapping is injective only up to
`pathlib` normalization — two keys `(F ++ "/") ++ R₁` and `(F ++ "/") ++ R₂`
with relative remainders map to the same local path iff the remainders
parse to the same segment list (empty and `.` components dropped). -/
theorem C6_path_collision_iff (lp : PPath) (F K1 K2 R1 R2 : String)
    (h1 : K1 = (F ++ "/") ++ R1) (h2 : K2 = (F ++ "/") ++ R2)
    (ha1 : strStartsWith R1 "/" = false) (ha2 : strStartsWith R2 "/" = false) :
    localDestPath lp F K1 = localDestPath lp F K2 ↔ pathSegs R1 = pathSegs R2 := by
  rw [localDestPath_eq lp F K1 R1 h1, localDestPath_eq lp F K2 R2 h2]
  generalize lp.join F = base
  unfold PPath.join
  rw [if_neg (by simp [ha1]), if_neg (by simp [ha2])]
  constructor
  · intro h
    exact List.append_cancel_left (congrArg PPath.segs h)
  · intro h
    rw [h]

/-- C6 witness: the spec's own example keys `F/a.txt` and `F/sub/a.txt`
have distinct segment lists and hence distinct destinations. -/
theorem C6_witness :
    (localDestPath (PPath.parse "local") "F" "F/a.txt" =
        localDestPath (PPath.parse "local") "F" "F/sub/a.txt" ↔
      pathSegs "a.txt" = pathSegs "sub/a.txt") ∧
    pathSegs "a.txt" ≠ pathSegs "sub/a.txt" ∧
    localDestPath (PPath.parse "local") "F" "F/a.txt" ≠
      localDestPath (PPath.parse "local") "F" "F/sub/a.txt" :=
  ⟨C6_path_collision_iff (PPath.parse "local") "F" "F/a.txt" "F/sub/a.txt"
      "a.txt" "sub/a.txt" (by decide) (by decide) (by decide) (by decide),
    by decide, by decide⟩

/-- C7: no pseudo-directory marker (key ending in `/`) is ever attempted —
every entry of the attempted-download trace has a non-marker key — and when
`download_folder` returns counts they total exactly the number of
non-marker objects listed, so markers contribute to neither count. -/
theorem C7_marker_exclusion (env : Env) (lp : PPath) (fs : List PPath)
    (F : String) (objs : List RemoteObject)
    (hl : env.listing (F ++ "/") = .ok objs) :
    (∀ p ∈ (download_folder env lp F fs).2.2, strEndsWith p.1 "/" = false) ∧
    (∀ s f fs' tr, download_folder env lp F fs = (.ok (s, f), fs', tr) →
      s + f = (objs.filter (fun o => !(strEndsWith o.key "/"))).length) := by
  have hform : (download_folder env lp F fs).2.2 = [] ∨
      download_folder env lp F fs =
        downloadLoop env lp F (objs.filter (fun o => !(strEndsWith o.key "/")))
          0 0 fs [] := by
    simp only [download_folder]
    rw [hl]
    simp only [list_folder_objects]
    by_cases hobj : objs.isEmpty
    · rw [if_pos hobj]
      exact Or.inl rfl
    · rw [if_neg hobj]
      by_cases hfil : (objs.filter (fun o => !(strEndsWith o.key "/"))).isEmpty
      · rw [if_pos hfil]
        exact Or.inl rfl
      · rw [if_neg hfil]
        exact Or.inr rfl
  constructor
  · intro p hp
    rcases hform with h0 | hrun
    · rw [h0] at hp
      cases hp
    · rw [hrun] at hp
      rcases downloadLoop_trace_keys env lp F _ 0 0 fs [] p hp with h | h
      · cases h
      · obtain ⟨o, ho, hk⟩ := List.mem_map.mp h
        rw [← hk]
        simpa using (List.mem_filter.mp ho).2
  · intro s f fs' tr h
    simp only [download_folder] at h
    rw [hl] at h
    simp only [list_folder_objects] at h
    by_cases hobj : objs.isEmpty
    · rw [if_pos hobj] at h
      rw [List.isEmpty_iff.mp hobj]
      simp only [Prod.mk.injEq, Except.ok.injEq] at h
      obtain ⟨⟨hs, hf⟩, -⟩ := h
      simp [← hs, ← hf]
    · rw [if_neg hobj] at h
      by_cases hfil : (objs.filter (fun o => !(strEndsWith o.key "/"))).isEmpty
      · rw [if_pos hfil] at h
        rw [List.isEmpty_iff.mp hfil]
        simp only [Prod.mk.injEq, Except.ok.injEq] at h
        obtain ⟨⟨hs, hf⟩, -⟩ := h
        simp [← hs, ← hf]
      · rw [if_neg hfil] at h
        simpa using downloadLoop_ok_counts env lp F _ 0 0 fs [] s f fs' tr h

end S3Dl

namespace S3Dl

/-- C7 witness: folder `M` lists a marker `M/` and a real object `M/x`;
only `M/x` is attempted and the counts total 1. -/
theorem C7_witness :
    envC7.listing ("M" ++ "/") = .ok [⟨"M/", some 0⟩, ⟨"M/x", some 1⟩] ∧
    (∀ p ∈ (download_folder envC7 (PPath.parse "local") "M" []).2.2,
      strEndsWith p.1 "/" = false) ∧
    0 + 1 = (([⟨"M/", some 0⟩, ⟨"M/x", some 1⟩] : List RemoteObject).filter
      (fun o => !(strEndsWith o.key "/"))).length :=
  ⟨by decide,
    (C7_marker_exclusion envC7 (PPath.parse "local") [] "M"
      [⟨"M/", some 0⟩, ⟨"M/x", some 1⟩] (by decide)).1,
    (C7_marker_exclusion envC7 (PPath.parse "local") [] "M"
      [⟨"M/", some 0⟩, ⟨"M/x", some 1⟩] (by decide)).2
      0 1 [⟨false, []⟩, ⟨false, ["local"]⟩, ⟨false, ["local", "M"]⟩]
      [("M/x", false)] (by decide)⟩

/-- C8: the exit status is `0` iff `failed_folders = 0` and `1` otherwise;
the itemized failed-folders listing is produced only when
`failed_folders > 0` and contains exactly the folder-result entries with
`failed_files > 0` (so an error-only folder with zero files attempted is
never itemized). -/
theorem C8_reporting (r : BatchResult) :
    (exitCode r = 0 ↔ r.failed_folders = 0) ∧
    (r.failed_folders ≠ 0 → exitCode r = 1) ∧
    (r.failed_folders = 0 → failedFoldersListing r = []) ∧
    (∀ name n, (name, n) ∈ failedFoldersListing r ↔
      (0 < r.failed_folders ∧
        ∃ res, (name, res) ∈ r.folder_results ∧ res.failed_files = n ∧ 0 < n)) := by
  refine ⟨?_, ?_, ?_, ?_⟩
  · unfold exitCode
    by_cases h : r.failed_folders = 0 <;> simp [h]
  · intro h
    unfold exitCode
    rw [if_neg h]
  · intro h
    unfold failedFoldersListing
    rw [if_neg (by omega)]
  · intro name n
    unfold failedFoldersListing
    by_cases h : r.failed_folders > 0
    · rw [if_pos h]
      simp only [List.mem_map, List.mem_filter, decide_eq_true_eq, Prod.mk.injEq]
      constructor
      · rintro ⟨p, ⟨hpm, hpf⟩, h1, h2⟩
        exact ⟨h, p.2, by rw [← h1]; exact hpm, h2, h2 ▸ hpf⟩
      · rintro ⟨-, res, hm, hf, hn⟩
        exact ⟨(name, res), ⟨hm, by show res.failed_files > 0; omega⟩, rfl, hf⟩
    · rw [if_neg h]
      simp [h]

/-- C8 witness: on `rC8`, exit status is 1 and only folder `A` (the one
with a failed file) is itemized, not the error-only folder `B`. -/
theorem C8_witness :
    rC8.failed_folders ≠ 0 ∧ exitCode rC8 = 1 ∧
    failedFoldersListing rC8 = [("A", 1)] :=
  ⟨by decide, (C8_reporting rC8).2.1 (by decide), by decide⟩

/-- C9: when an exception escapes `download_folder` after the trace already
records a successful download `(k, true)`, the orchestrator still stores
`⟨0, 0, some e⟩` for the folder and none of the file aggregates moves: the
completed downloads of that folder are counted nowhere. -/
theorem C9_lost_partial_progress (env : Env) (lp : PPath) (fs fs' : List PPath)
    (F e k : String) (tr : List (String × Bool)) (r : BatchResult)
    (h : download_folder env lp F fs = (.error e, fs', tr))
    (_hk : (k, true) ∈ tr) :
    processFolder env lp (r, fs) F =
      ({ r with
          failed_folders := r.failed_folders + 1,
          folder_results := dictInsert r.folder_results F ⟨0, 0, some e⟩ }, fs') ∧
    (processFolder env lp (r, fs) F).1.successful_files = r.successful_files ∧
    (processFolder env lp (r, fs) F).1.failed_files = r.failed_files ∧
    (processFolder env lp (r, fs) F).1.total_files = r.total_files := by
  have hp := processFolder_error env lp r fs F e fs' tr h
  refine ⟨hp, ?_, ?_, ?_⟩ <;> rw [hp]

/-- C9 witness: `F/a.txt` downloads successfully (it is in the trace with
outcome `true`), then the missing `Size` of `F/b.txt` raises; the recorded
entry is `⟨0, 0, some "KeyError: Size"⟩`. -/
theorem C9_witness :
    download_folder envC9 (PPath.parse "local") "F" [] =
      (.error "KeyError: Size",
        [⟨false, []⟩, ⟨false, ["local"]⟩, ⟨false, ["local", "F"]⟩],
        [("F/a.txt", true)]) ∧
    ("F/a.txt", true) ∈ [("F/a.txt", true)] ∧
    (processFolder envC9 (PPath.parse "local") (initBatch 1, []) "F" =
        ({ initBatch 1 with
            failed_folders := (initBatch 1).failed_folders + 1,
            folder_results := dictInsert (initBatch 1).folder_results "F"
              ⟨0, 0, some "KeyError: Size"⟩ },
          [⟨false, []⟩, ⟨false, ["local"]⟩, ⟨false, ["local", "F"]⟩]) ∧
      (processFolder envC9 (PPath.parse "local") (initBatch 1, []) "F").1.successful_files =
        (initBatch 1).successful_files ∧
      (processFolder envC9 (PPath.parse "local") (initBatch 1, []) "F").1.failed_files =
        (initBatch 1).failed_files ∧
      (processFolder envC9 (PPath.parse "local") (initBatch 1, []) "F").1.total_files =
        (initBatch 1).total_files) :=
  ⟨by decide, by decide,
    C9_lost_partial_progress envC9 (PPath.parse "local") []
      [⟨false, []⟩, ⟨false, ["local"]⟩, ⟨false, ["local", "F"]⟩] "F" "KeyError: Size"
      "F/a.txt" [("F/a.txt", true)] (initBatch 1) (by decide) (by decide)⟩

/-- C10: `download_file` creates the destination's parent directory chain
independently of the fetch outcome (the filesystem result is the same for
every fetch oracle), and when the call reports `Failed` the created
directories remain: the call is not atomic on the local filesystem. -/
theorem C10_mkdir_before_fetch (env env2 : Env) (s3Key : String) (dest : PPath)
    (fs : List PPath) :
    (download_file env s3Key dest fs).2 = mkdirAll fs dest.parent ∧
    (download_file env s3Key dest fs).2 = (download_file env2 s3Key dest fs).2 ∧
    dest.parent ∈ (download_file env s3Key dest fs).2 ∧
    (∀ d ∈ dest.parent.ancestors, d ∈ (download_file env s3Key dest fs).2) ∧
    (∀ d ∈ fs, d ∈ (download_file env s3Key dest fs).2) ∧
    ((download_file env s3Key dest fs).1 = false →
      dest.parent ∈ (download_file env s3Key dest fs).2 ∧
      ∀ d ∈ fs, d ∈ (download_file env s3Key dest fs).2) := by
  refine ⟨rfl, rfl, ?_, ?_, ?_, ?_⟩
  · exact mem_mkdirAll_of_ancestor fs dest.parent dest.parent (mem_ancestors_self _)
  · intro d hd
    exact mem_mkdirAll_of_ancestor fs dest.parent d hd
  · intro d hd
    exact mem_mkdirAll_of_mem fs dest.parent d hd
  · intro _
    exact ⟨mem_mkdirAll_of_ancestor fs dest.parent dest.parent (mem_ancestors_self _),
      fun d hd => mem_mkdirAll_of_mem fs dest.parent d hd⟩

/-- C10 witness: a failing fetch of `F/x` still leaves `local/F` (and its
ancestors) created. -/
theorem C10_witness :
    (download_file envC10 "F/x" (PPath.parse "local/F/x") []).1 = false ∧
    ((PPath.parse "local/F/x").parent ∈
        (download_file envC10 "F/x" (PPath.parse "local/F/x") []).2 ∧
      ∀ d ∈ ([] : List PPath),
        d ∈ (download_file envC10 "F/x" (PPath.parse "local/F/x") []).2) :=
  ⟨by decide,
    (C10_mkdir_before_fetch envC10 envC10 "F/x" (PPath.parse "local/F/x") []).2.2.2.2.2
      (by decide)⟩

end S3Dl
